import Mathlib

/-!
Verification of the metrics-and-alerting telemetry pipeline.

The development shallowly embeds the Go source of the repository:
the in-memory metric store (`internal/storage/memory.go`), the file
backend (`internal/storage/file.go`), the collector's batch update
handler (`cmd/server/handlers.go`), the signature-verification
middleware and HMAC-SHA256 (`middelware.go` revisions), and the
agent's retry/backoff and report-tick logic (agent `main.go`).

Modelling conventions:
* Go `map[string]V` becomes an association list with unique keys;
  `mapGet`/`mapSet` mirror Go map read and write.
* Go `float64` gauge values are only stored, compared and serialized
  by this program (never used in arithmetic).  The base model uses
  `Rat` for the finite values; the file-backend round trip is stated
  over the full float64 value domain `Float64` (finite, NaN, signed
  infinities) because `encoding/json` refuses to marshal NaN and
  infinities, which are reachable gauge values via `strconv.ParseFloat`.
* Go `int64` counter values are modelled by integers reduced by
  `wrap64` at every arithmetic update, matching the two's-complement
  wrapping of Go `int64` addition on overflow.
* JSON (de)serialization of the `[]metrics.Metrics` snapshot is an
  external library: on marshalable values it performs an exact round
  trip, so successfully written file contents are modelled as the
  metrics list itself; `marshalMetricsF` models the failure of
  `json.MarshalIndent` on NaN and infinite values.
* Time (`time.Sleep`) is irrelevant to the verified properties and is
  dropped; the retry delay schedule is kept as data because its length
  determines the attempt count.
-/

namespace MetricsPipeline

/-- Finite Go `float64` values as stored in gauges (value domain only,
no arithmetic is ever performed on them).  The full float64 domain with
NaN and infinities is `Float64` below, needed only where `encoding/json`
marshalling can fail. -/
abbrev GoFloat := Rat

/-- Go `int64` values.  Arithmetic on them wraps: see `wrap64`. -/
abbrev GoInt := Int

/-- Two's-complement reduction of an integer to the `int64` range
`[-2^63, 2^63)`, the result Go stores after an overflowing `int64`
addition. -/
def wrap64 (x : Int) : Int :=
  (x + 9223372036854775808) % 18446744073709551616 - 9223372036854775808

/-- Embeds `internal/metrics.Metrics`: the JSON payload `{id, type, delta?, value?}`. -/
structure Metrics where
  ID : String
  MType : String
  Delta : Option GoInt := none
  Value : Option GoFloat := none
deriving DecidableEq, Repr

/-- Read from a Go map modelled as an association list. -/
def mapGet (m : List (String × α)) (k : String) : Option α :=
  match m with
  | [] => none
  | (k', v) :: rest => if k' = k then some v else mapGet rest k

/-- Write to a Go map modelled as an association list: replace in place
if the key is present, otherwise append. -/
def mapSet (m : List (String × α)) (k : String) (v : α) : List (String × α) :=
  match m with
  | [] => [(k, v)]
  | (k', v') :: rest => if k' = k then (k', v) :: rest else (k', v') :: mapSet rest k v

/-- Embeds `storage.MemStorage`: the in-memory backend's two maps.  The
`sync.RWMutex` only serializes accesses and carries no state, so it is
not part of the model. -/
structure MemStorage where
  gauge : List (String × GoFloat)
  counter : List (String × GoInt)
deriving DecidableEq, Repr

/-- Embeds `storage.NewMemStorage`. -/
def NewMemStorage : MemStorage := { gauge := [], counter := [] }

/-- Embeds `(*MemStorage).UpdateGauge`: `s.gauge[name] = value`. -/
def MemStorage.UpdateGauge (s : MemStorage) (name : String) (value : GoFloat) : MemStorage :=
  { s with gauge := mapSet s.gauge name value }

/-- Embeds `(*MemStorage).UpdateCounter`: `s.counter[name] += delta`
(a missing key reads as zero in Go; `int64` addition wraps on
overflow, hence the `wrap64`). -/
def MemStorage.UpdateCounter (s : MemStorage) (name : String) (delta : GoInt) : MemStorage :=
  { s with counter := mapSet s.counter name (wrap64 ((mapGet s.counter name).getD 0 + delta)) }

/-- Embeds `(*MemStorage).SetCounter`: `s.counter[name] = value` (overwrite). -/
def MemStorage.SetCounter (s : MemStorage) (name : String) (value : GoInt) : MemStorage :=
  { s with counter := mapSet s.counter name value }

/-- Embeds `(*MemStorage).GetGauge`: the `(value, ok)` pair as an `Option`. -/
def MemStorage.GetGauge (s : MemStorage) (name : String) : Option GoFloat :=
  mapGet s.gauge name

/-- Embeds `(*MemStorage).GetCounter`: the `(value, ok)` pair as an `Option`. -/
def MemStorage.GetCounter (s : MemStorage) (name : String) : Option GoInt :=
  mapGet s.counter name

/-- Snapshot element built by the gauge loop of `GetAll`. -/
def gaugeEntry (p : String × GoFloat) : Metrics :=
  { ID := p.1, MType := "gauge", Value := some p.2 }

/-- Snapshot element built by the counter loop of `GetAll`. -/
def counterEntry (p : String × GoInt) : Metrics :=
  { ID := p.1, MType := "counter", Delta := some p.2 }

/-- Embeds `(*MemStorage).GetAll`: snapshot of all gauges then all counters. -/
def MemStorage.GetAll (s : MemStorage) : List Metrics :=
  s.gauge.map gaugeEntry ++ s.counter.map counterEntry

/-! ### Collector batch update handler (latest revision of
`cmd/server/handlers.go`, function `updatesBatchHandler`) -/

/-- Structured reason carried by a `writeJSONError` response of the
batch handler; each constructor corresponds to one of the message
strings produced by the handler. -/
inductive BatchReject
  | emptyBatch
  | missingID
  | missingValue (id : String)
  | unexpectedDelta (id : String)
  | missingDelta (id : String)
  | unexpectedValue (id : String)
  | unknownType (id : String)
deriving DecidableEq, Repr

/-- Result of the batch handler: an encoded JSON body on success, or a
`writeJSONError` status and reason. -/
inductive HandlerResult
  | ok (body : List Metrics)
  | jsonError (status : Nat) (reason : BatchReject)
deriving DecidableEq, Repr

/-- Validation applied to one batch element by the first loop of
`updatesBatchHandler` (empty id, gauge needs Value and no Delta,
counter needs Delta and no Value, unknown kind rejected). -/
def validateBatchElem (m : Metrics) : Option BatchReject :=
  if m.ID = "" then some .missingID
  else if m.MType = "gauge" then
    if m.Value.isNone then some (.missingValue m.ID)
    else if m.Delta.isSome then some (.unexpectedDelta m.ID)
    else none
  else if m.MType = "counter" then
    if m.Delta.isNone then some (.missingDelta m.ID)
    else if m.Value.isSome then some (.unexpectedValue m.ID)
    else none
  else some (.unknownType m.ID)

/-- First validation failure in the batch, as found by the validation
loop of `updatesBatchHandler` (which returns on the first error). -/
def findBatchError : List Metrics → Option BatchReject
  | [] => none
  | m :: rest =>
    match validateBatchElem m with
    | some e => some e
    | none => findBatchError rest

/-- Second loop of `updatesBatchHandler`: apply each element via
`store.UpdateGauge` or `store.SetCounter`.  Against the in-memory
backend both operations always return a nil error, so the loop never
aborts early.  After validation the dereferences `*m.Value` and
`*m.Delta` are safe; the model uses `getD` with an irrelevant default. -/
def applyBatch (batch : List Metrics) (s : MemStorage) : MemStorage :=
  batch.foldl
    (fun st m =>
      if m.MType = "gauge" then st.UpdateGauge m.ID (m.Value.getD 0)
      else if m.MType = "counter" then st.SetCounter m.ID (m.Delta.getD 0)
      else st)
    s

/-- Embeds `updatesBatchHandler` (decoded JSON body given as a value;
`saveFunc` only persists to a file and does not touch the metric maps):
reject an empty batch, pre-validate every element, then apply all. -/
def updatesBatchHandler (batch : List Metrics) (s : MemStorage) :
    HandlerResult × MemStorage :=
  if batch.length = 0 then (.jsonError 400 .emptyBatch, s)
  else
    match findBatchError batch with
    | some e => (.jsonError 400 e, s)
    | none => (.ok batch, applyBatch batch s)

/-! ### File backend (`internal/storage/file.go`) -/

/-- Flags passed to `os.OpenFile` by the save path. -/
inductive OpenFlag
  | O_WRONLY
  | O_CREATE
  | O_TRUNC
  | O_SYNC
deriving DecidableEq, Repr

/-- One file-system operation performed by the file backend, as visible
at the `os` package boundary. -/
inductive FileOp
  | openFile (path : String) (flags : List OpenFlag)
  | write (path : String) (content : List Metrics)
  | rename (src tgt : String)
deriving DecidableEq, Repr

/-- Whether a file-system operation is a rename. -/
def FileOp.isRename : FileOp → Bool
  | .rename _ _ => true
  | _ => false

/-- Embeds `(*FileStorage).Save`: marshal `GetAll()` and rewrite the
backing file via `os.OpenFile(s.filePath, O_WRONLY|O_CREATE|O_TRUNC|O_SYNC, 0644)`
followed by `file.Write(data)`; the resulting trace of file-system
operations. -/
def FileStorage.saveOps (s : MemStorage) (filePath : String) : List FileOp :=
  [ .openFile filePath [.O_WRONLY, .O_CREATE, .O_TRUNC, .O_SYNC],
    .write filePath s.GetAll ]

/-! ### File backend save and load over the full float64 value domain.
The save path runs `json.MarshalIndent`, which fails on NaN and
infinite float64 values; those values are reachable gauge states
(`strconv.ParseFloat` accepts `NaN`, `+Inf`, `-Inf` on the legacy text
route, and `UpdateGauge` mutates the mirror before `Save` runs), so the
round-trip property must be stated over the full domain. -/

/-- Full value domain of a Go `float64` gauge: a finite value, NaN, or
a signed infinity. -/
inductive Float64
  | finite (q : Rat)
  | nan
  | posInf
  | negInf
deriving DecidableEq, Repr

/-- The `encoding/json` marshal error raised for a float64 value, if
any: `json: unsupported value: NaN` and friends. -/
def Float64.jsonUnsupported : Float64 → Option String
  | .nan => some "json: unsupported value: NaN"
  | .posInf => some "json: unsupported value: +Inf"
  | .negInf => some "json: unsupported value: -Inf"
  | .finite _ => none

/-- The metrics payload with its gauge value over the full float64
domain. -/
structure MetricsF where
  ID : String
  MType : String
  Delta : Option GoInt := none
  Value : Option Float64 := none
deriving DecidableEq, Repr

/-- The store state with gauge values over the full float64 domain. -/
structure MemStorageF where
  gauge : List (String × Float64)
  counter : List (String × GoInt)
deriving DecidableEq, Repr

/-- Fresh empty store (`storage.NewMemStorage`) over the full domain. -/
def NewMemStorageF : MemStorageF := { gauge := [], counter := [] }

/-- Snapshot element built by the gauge loop of `GetAll`. -/
def gaugeEntryF (p : String × Float64) : MetricsF :=
  { ID := p.1, MType := "gauge", Value := some p.2 }

/-- Snapshot element built by the counter loop of `GetAll`. -/
def counterEntryF (p : String × GoInt) : MetricsF :=
  { ID := p.1, MType := "counter", Delta := some p.2 }

/-- Embeds `(*MemStorage).GetAll` over the full domain. -/
def MemStorageF.GetAll (s : MemStorageF) : List MetricsF :=
  s.gauge.map gaugeEntryF ++ s.counter.map counterEntryF

/-- Key uniqueness within each kind namespace: the invariant Go maps
guarantee for every reachable store state. -/
def MemStorageF.wf (s : MemStorageF) : Prop :=
  (s.gauge.map Prod.fst).Nodup ∧ (s.counter.map Prod.fst).Nodup

/-- Embeds `json.MarshalIndent` on a metrics snapshot: fails with the
error of the first NaN or infinite value encountered; on success the
encoding round-trips exactly and is modelled as the list itself. -/
def marshalMetricsF (l : List MetricsF) : Except String (List MetricsF) :=
  match l.findSome? (fun m =>
      match m.Value with
      | some v => v.jsonUnsupported
      | none => none) with
  | some msg => .error msg
  | none => .ok l

/-- Embeds the serialization step of `(*FileStorage).Save`: `GetAll()`
then `json.MarshalIndent(metricsList, ...)`.  On a marshal error the
function returns it before any file is opened or written. -/
def FileStorage.saveSnapshot (s : MemStorageF) : Except String (List MetricsF) :=
  marshalMetricsF s.GetAll

/-- Loop body of `(*FileStorage).load`: the `switch m.MType` statement.
Gauge entries need a Value, counter entries need a Delta, anything else
is skipped. -/
def loadStepF (st : MemStorageF) (m : MetricsF) : MemStorageF :=
  if m.MType = "gauge" then
    match m.Value with
    | some v => { st with gauge := mapSet st.gauge m.ID v }
    | none => st
  else if m.MType = "counter" then
    match m.Delta with
    | some d => { st with counter := mapSet st.counter m.ID d }
    | none => st
  else st

/-- Embeds `(*FileStorage).load`: fold the deserialized snapshot into
the memory mirror. -/
def FileStorage.loadMetricsF (metricsList : List MetricsF) (s : MemStorageF) : MemStorageF :=
  metricsList.foldl loadStepF s

/-- The `save(); restart; load()` round trip: the snapshot read back by
a fresh store after a successful save, or `none` when `Save` failed to
marshal the snapshot and wrote nothing. -/
def fileRoundTrip (s : MemStorageF) : Option (List MetricsF) :=
  match FileStorage.saveSnapshot s with
  | .error _ => none
  | .ok data => some ((FileStorage.loadMetricsF data NewMemStorageF).GetAll)

/-! ### Agent retry with backoff (part_000) -/

/-- Error values produced by agent sends, shaped after the Go error
types the classifier inspects: a wrapping `url.Error`, a `net.OpError`,
any other `net.Error` with its `Timeout()` answer, the custom
`httpError` carrying a status code, or any other error. -/
inductive AgentError
  | urlWrap (inner : AgentError)
  | opError
  | netErr (timeout : Bool)
  | httpErr (statusCode : Nat) (msg : String)
  | otherErr
deriving DecidableEq, Repr

/-- Embeds `isRetriableHTTPError`: 5xx status codes. -/
def isRetriableHTTPError (statusCode : Nat) : Bool :=
  500 ≤ statusCode && statusCode ≤ 599

/-- Embeds `isRetriableNetworkError`: the type switch on the error.
A nil error never reaches this point inside `retryWithBackoff`.
Anything that is not a `url.Error`, `net.OpError` or other `net.Error`
falls through to the final `return true`. -/
def isRetriableNetworkError : AgentError → Bool
  | .urlWrap inner => isRetriableNetworkError inner
  | .opError => true
  | .netErr timeout => timeout
  | .httpErr _ _ => true
  | .otherErr => true

/-- Classification performed inside the `retryWithBackoff` loop body:
retriable when the network check says so, or when the error is an
`httpError` with a retriable (5xx) status. -/
def classifyRetriable (e : AgentError) : Bool :=
  isRetriableNetworkError e ||
    (match e with
     | .httpErr status _ => isRetriableHTTPError status
     | _ => false)

/-- Outcome of `retryWithBackoff`: success, a non-retriable error
returned as-is, or the schedule exhausted and the error wrapped as
`failed after %d attempts: %w` (attempt count and last cause). -/
inductive RetryOutcome
  | ok
  | failed (e : AgentError)
  | exhausted (attempts : Nat) (last : AgentError)
deriving DecidableEq, Repr

/-- Loop of `retryWithBackoff` over the remaining delay schedule.
`fn i` is the result of the `i`-th invocation of the operation
(`none` = success); `total` is the schedule length used in the wrapped
error.  Returns how many times `fn` was invoked, with the outcome.
`time.Sleep(delay)` is dropped from the model. -/
def retryLoop (fn : Nat → Option AgentError) (total : Nat) :
    List Nat → Nat → Nat × RetryOutcome
  | [], i => (i, .ok)
  | _ :: rest, i =>
    match fn i with
    | none => (i + 1, .ok)
    | some err =>
      if classifyRetriable err then
        match rest with
        | [] => (i + 1, .exhausted total err)
        | _ :: _ => retryLoop fn total rest (i + 1)
      else (i + 1, .failed err)

/-- Delay schedule of the agent-side `retryWithBackoff`, in seconds. -/
def backoffDelays : List Nat := [0, 1, 3, 5]

/-- Embeds `retryWithBackoff` (part_000). -/
def retryWithBackoff (fn : Nat → Option AgentError) : Nat × RetryOutcome :=
  retryLoop fn backoffDelays.length backoffDelays 0

/-! ### Agent report tick (part_002, `main`) -/

/-- A request issued by the agent: the batch POST to `/updates` or a
single-metric POST to `/update`. -/
inductive SendReq
  | batchReq (ms : List Metrics)
  | singleReq (m : Metrics)
deriving DecidableEq, Repr

/-- Whether a request is a per-metric individual send. -/
def SendReq.isSingle : SendReq → Bool
  | .singleReq _ => true
  | _ => false

/-- Deterministic network environment: the result of attempting one
send (`none` = HTTP 200 OK). -/
abbrev Network := SendReq → Option AgentError

/-- Retrying one request against a deterministic network, as performed
by `retryWithBackoff(func() error { return send(...) })`: every attempt
issues the same request. -/
def retrySend (net : Network) (req : SendReq) : Nat × RetryOutcome :=
  retryWithBackoff (fun _ => net req)

/-- Embeds the report-tick branch of the agent `main` (part_002,
lines 98-127): batch send under `retryWithBackoff`; if it failed, fall
back to per-metric sends each under `retryWithBackoff` (failures only
logged); if it succeeded, send each metric individually once via
`sendMetricJSON` without retry.  Returns the trace of issued requests. -/
def reportTickSends (net : Network) (batch : List Metrics) : List SendReq :=
  let r := retrySend net (.batchReq batch)
  let batchAttempts := List.replicate r.1 (SendReq.batchReq batch)
  match r.2 with
  | .ok => batchAttempts ++ batch.map SendReq.singleReq
  | _ =>
    batchAttempts ++
      batch.flatMap (fun m => List.replicate (retrySend net (.singleReq m)).1 (SendReq.singleReq m))

/-! ### HMAC-SHA256 (Go `crypto/sha256`, `crypto/hmac`, `encoding/hex`)
over byte lists, words as `Nat` reduced mod 2^32 -/

/-- Truncation to a 32-bit word. -/
def u32 (x : Nat) : Nat := x % 4294967296

/-- Right rotation of a 32-bit word. -/
def rotr32 (x n : Nat) : Nat := u32 ((x >>> n) ||| (x <<< (32 - n)))

/-- Bitwise complement of a 32-bit word. -/
def not32 (x : Nat) : Nat := x ^^^ 4294967295

/-- SHA-256 round constants. -/
def sha256K : List Nat :=
  [1116352408, 1899447441, 3049323471, 3921009573, 961987163,
   1508970993, 2453635748, 2870763221, 3624381080, 310598401,
   607225278, 1426881987, 1925078388, 2162078206, 2614888103,
   3248222580, 3835390401, 4022224774, 264347078, 604807628,
   770255983, 1249150122, 1555081692, 1996064986, 2554220882,
   2821834349, 2952996808, 3210313671, 3336571891, 3584528711,
   113926993, 338241895, 666307205, 773529912, 1294757372,
   1396182291, 1695183700, 1986661051, 2177026350, 2456956037,
   2730485921, 2820302411, 3259730800, 3345764771, 3516065817,
   3600352804, 4094571909, 275423344, 430227734, 506948616,
   659060556, 883997877, 958139571, 1322822218, 1537002063,
   1747873779, 1955562222, 2024104815, 2227730452, 2361852424,
   2428436474, 2756734187, 3204031479, 3329325298]

/-- Working state of SHA-256: eight 32-bit words. -/
structure Sha256State where
  h0 : Nat
  h1 : Nat
  h2 : Nat
  h3 : Nat
  h4 : Nat
  h5 : Nat
  h6 : Nat
  h7 : Nat
deriving DecidableEq, Repr

/-- Initial SHA-256 state. -/
def sha256Init : Sha256State :=
  ⟨1779033703, 3144134277, 1013904242, 2773480762,
   1359893119, 2600822924, 528734635, 1541459225⟩

/-- SHA-256 big sigma 0. -/
def bigSigma0 (x : Nat) : Nat := rotr32 x 2 ^^^ rotr32 x 13 ^^^ rotr32 x 22

/-- SHA-256 big sigma 1. -/
def bigSigma1 (x : Nat) : Nat := rotr32 x 6 ^^^ rotr32 x 11 ^^^ rotr32 x 25

/-- SHA-256 small sigma 0. -/
def smallSigma0 (x : Nat) : Nat := rotr32 x 7 ^^^ rotr32 x 18 ^^^ (x >>> 3)

/-- SHA-256 small sigma 1. -/
def smallSigma1 (x : Nat) : Nat := rotr32 x 17 ^^^ rotr32 x 19 ^^^ (x >>> 10)

/-- SHA-256 choose function. -/
def chFn (x y z : Nat) : Nat := (x &&& y) ^^^ (not32 x &&& z)

/-- SHA-256 majority function. -/
def majFn (x y z : Nat) : Nat := (x &&& y) ^^^ (x &&& z) ^^^ (y &&& z)

/-- Big-endian 32-bit words from a 64-byte block. -/
def toWords : List Nat → List Nat
  | b0 :: b1 :: b2 :: b3 :: rest =>
    (((b0 * 256 + b1) * 256 + b2) * 256 + b3) :: toWords rest
  | _ => []

/-- Extend the 16 message-schedule words to 64. -/
def extendSchedule (w : List Nat) : List Nat :=
  (List.range 48).foldl
    (fun acc _ =>
      let n := acc.length
      acc ++ [u32 (smallSigma1 (acc.getD (n - 2) 0) + acc.getD (n - 7) 0 +
                   smallSigma0 (acc.getD (n - 15) 0) + acc.getD (n - 16) 0)])
    w

/-- One SHA-256 round for a round-constant/schedule-word pair. -/
def sha256Round (st : Sha256State) (kw : Nat × Nat) : Sha256State :=
  let t1 := u32 (st.h7 + bigSigma1 st.h4 + chFn st.h4 st.h5 st.h6 + kw.1 + kw.2)
  let t2 := u32 (bigSigma0 st.h0 + majFn st.h0 st.h1 st.h2)
  ⟨u32 (t1 + t2), st.h0, st.h1, st.h2, u32 (st.h3 + t1), st.h4, st.h5, st.h6⟩

/-- Compress one 64-byte block into the state. -/
def sha256Compress (st : Sha256State) (block : List Nat) : Sha256State :=
  let w := extendSchedule (toWords block)
  let f := (sha256K.zip w).foldl sha256Round st
  ⟨u32 (st.h0 + f.h0), u32 (st.h1 + f.h1), u32 (st.h2 + f.h2), u32 (st.h3 + f.h3),
   u32 (st.h4 + f.h4), u32 (st.h5 + f.h5), u32 (st.h6 + f.h6), u32 (st.h7 + f.h7)⟩

/-- Standard SHA-256 padding: 0x80, zeros, 64-bit big-endian bit length. -/
def sha256Pad (msg : List Nat) : List Nat :=
  let len := msg.length
  let zeros := (120 - (len + 1) % 64) % 64
  let bitLen := len * 8
  msg ++ [0x80] ++ List.replicate zeros 0 ++
    [(bitLen >>> 56) % 256, (bitLen >>> 48) % 256, (bitLen >>> 40) % 256, (bitLen >>> 32) % 256,
     (bitLen >>> 24) % 256, (bitLen >>> 16) % 256, (bitLen >>> 8) % 256, bitLen % 256]

/-- Split a padded message into 64-byte blocks. -/
def chunks64 (l : List Nat) : List (List Nat) :=
  match l with
  | [] => []
  | x :: xs => ((x :: xs).take 64) :: chunks64 ((x :: xs).drop 64)
termination_by l.length
decreasing_by simp [List.length_drop]; omega

/-- Big-endian bytes of a 32-bit word. -/
def wordBytes (w : Nat) : List Nat :=
  [(w >>> 24) % 256, (w >>> 16) % 256, (w >>> 8) % 256, w % 256]

/-- SHA-256 of a byte list, as computed by Go `crypto/sha256`. -/
def sha256 (msg : List Nat) : List Nat :=
  let final := (chunks64 (sha256Pad msg)).foldl sha256Compress sha256Init
  wordBytes final.h0 ++ wordBytes final.h1 ++ wordBytes final.h2 ++ wordBytes final.h3 ++
    wordBytes final.h4 ++ wordBytes final.h5 ++ wordBytes final.h6 ++ wordBytes final.h7

/-- HMAC block size for SHA-256. -/
def hmacBlockSize : Nat := 64

/-- Normalize and zero-pad the HMAC key to the block size. -/
def hmacKey (key : List Nat) : List Nat :=
  let k := if key.length > hmacBlockSize then sha256 key else key
  k ++ List.replicate (hmacBlockSize - k.length) 0

/-- HMAC-SHA256 as computed by Go `crypto/hmac`. -/
def hmacSha256 (key data : List Nat) : List Nat :=
  let k := hmacKey key
  let ipad := k.map (fun b => b ^^^ 0x36)
  let opad := k.map (fun b => b ^^^ 0x5c)
  sha256 (opad ++ sha256 (ipad ++ data))

/-- Lower-case hex digit. -/
def hexDigit (n : Nat) : Char :=
  if n < 10 then Char.ofNat (48 + n) else Char.ofNat (87 + n)

/-- Lower-case hex encoding, as produced by Go `hex.EncodeToString`. -/
def hexEncode (bytes : List Nat) : String :=
  String.mk (bytes.flatMap (fun b => [hexDigit (b / 16), hexDigit (b % 16)]))

/-- Embeds `computeHMACSHA256(data, key)`. -/
def computeHMACSHA256 (data key : List Nat) : String :=
  hexEncode (hmacSha256 key data)

/-! ### Signature verification middleware (part_011) -/

/-- An inbound HTTP request as seen by the middleware: the optional
`HashSHA256` header and the raw (possibly compressed) body bytes. -/
structure HTTPRequest where
  hashHeader : Option String
  body : List Nat
deriving DecidableEq, Repr

/-- Go `Header.Get`: empty string when the header is absent. -/
def headerGet (h : Option String) : String := h.getD ""

/-- Embeds `verifySignatureMiddleware`.  `next` is the wrapped handler
pipeline (decompression, JSON parsing, route handler), modelled as a
state transformer on the store returning a response body.  The result
is either the `http.Error` rejection (status and message) or the
response of `next`. -/
def verifySignatureMiddleware (key : List Nat)
    (next : HTTPRequest → MemStorage → String × MemStorage)
    (r : HTTPRequest) (s : MemStorage) :
    Except (Nat × String) String × MemStorage :=
  if key.length = 0 then
    let res := next r s
    (Except.ok res.1, res.2)
  else
    let receivedHash := headerGet r.hashHeader
    if receivedHash = "" then
      (Except.error (400, "Missing HashSHA256 header"), s)
    else
      let expectedHash := computeHMACSHA256 r.body key
      if receivedHash ≠ expectedHash then
        (Except.error (400, "Invalid HashSHA256 signature"), s)
      else
        let res := next r s
        (Except.ok res.1, res.2)

/-! ### Concrete inputs used by claim instances -/

/-- The example batch of the spec scenario: a gauge `Alloc = 1024.0`
and a counter `PollCount` with `delta = 1`. -/
def exampleBatch : List Metrics :=
  [{ ID := "Alloc", MType := "gauge", Value := some 1024 },
   { ID := "PollCount", MType := "counter", Delta := some 1 }]

/-- A single counter metric as reported by the agent. -/
def pollCountMetric : Metrics :=
  { ID := "PollCount", MType := "counter", Delta := some 1 }

/-- An operation failing every attempt with a retriable error. -/
def alwaysOpError : Nat → Option AgentError :=
  fun _ => some AgentError.opError

/-- An operation failing immediately with a non-retriable error
(a non-timeout `net.Error` that is not a `net.OpError`). -/
def fatalFirstTry : Nat → Option AgentError :=
  fun _ => some (AgentError.netErr false)

/-- A store with one gauge, used to exercise the file-backend save. -/
def exampleFileStore : MemStorage :=
  NewMemStorage.UpdateGauge "Alloc" 1024

/-- A batch whose first element is valid and whose second element is a
counter missing its delta. -/
def exampleInvalidBatch : List Metrics :=
  [{ ID := "Alloc", MType := "gauge", Value := some 1024 },
   { ID := "PollCount", MType := "counter" }]

/-- A store holding one NaN gauge, reachable through the legacy text
route `POST /update/gauge/Bad/NaN` (ParseFloat accepts `NaN` and the
mirror is mutated before Save runs). -/
def nanStore : MemStorageF :=
  { gauge := [("Bad", Float64.nan)], counter := [] }

/-- A well-formed, fully finite store used to instantiate the
round-trip theorem. -/
def exampleStoreF : MemStorageF :=
  { gauge := [("Alloc", Float64.finite 1024)], counter := [("PollCount", 7)] }

/-! ### Association-list lemmas -/

theorem mapGet_mapSet_self (m : List (String × α)) (k : String) (v : α) :
    mapGet (mapSet m k v) k = some v := by
  induction m with
  | nil => simp [mapGet, mapSet]
  | cons p rest ih =>
    obtain ⟨k', v'⟩ := p
    by_cases h : k' = k
    · simp [mapGet, mapSet, h]
    · simp [mapGet, mapSet, h, ih]

theorem mapGet_mapSet_ne (m : List (String × α)) {k' k : String} (v : α) (h : k' ≠ k) :
    mapGet (mapSet m k' v) k = mapGet m k := by
  induction m with
  | nil => simp [mapGet, mapSet, h]
  | cons p rest ih =>
    obtain ⟨k₀, v₀⟩ := p
    by_cases h₀ : k₀ = k'
    · subst h₀
      simp [mapGet, mapSet, h]
    · by_cases h₁ : k₀ = k
      · simp [mapGet, mapSet, h₀, h₁, Ne.symm h]
      · simp [mapGet, mapSet, h₀, h₁, ih]

/-! ### Further association-list and load/save lemmas -/

theorem mapGet_append_of_none {m₁ : List (String × α)} {k : String}
    (h : mapGet m₁ k = none) (m₂ : List (String × α)) :
    mapGet (m₁ ++ m₂) k = mapGet m₂ k := by
  induction m₁ with
  | nil => simp
  | cons p rest ih =>
    obtain ⟨k₀, v₀⟩ := p
    by_cases h₀ : k₀ = k
    · simp [mapGet, h₀] at h
    · simp only [mapGet, h₀, if_false, List.cons_append] at h ⊢
      exact ih h

theorem mapSet_of_get_none {m : List (String × α)} {k : String}
    (h : mapGet m k = none) (v : α) :
    mapSet m k v = m ++ [(k, v)] := by
  induction m with
  | nil => simp [mapSet]
  | cons p rest ih =>
    obtain ⟨k₀, v₀⟩ := p
    by_cases h₀ : k₀ = k
    · simp [mapGet, h₀] at h
    · simp only [mapGet, h₀, if_false] at h
      simp [mapSet, h₀, ih h]

theorem foldl_mapSet_of_fresh :
    ∀ (l acc : List (String × α)),
      (l.map Prod.fst).Nodup → (∀ k ∈ l.map Prod.fst, mapGet acc k = none) →
      l.foldl (fun a p => mapSet a p.1 p.2) acc = acc ++ l := by
  intro l
  induction l with
  | nil => intro acc _ _; simp
  | cons p rest ih =>
    intro acc hnodup hfresh
    obtain ⟨k, v⟩ := p
    have hk : mapGet acc k = none := hfresh k (by simp)
    rw [List.map_cons] at hnodup
    have hnd := List.nodup_cons.mp hnodup
    simp only [List.foldl_cons]
    rw [mapSet_of_get_none hk]
    rw [ih (acc ++ [(k, v)]) hnd.2 ?_]
    · simp
    · intro k' hk'
      have hne : k ≠ k' := fun e => hnd.1 (e ▸ hk')
      rw [mapGet_append_of_none (hfresh k' (by simp [hk']))]
      simp [mapGet, hne]

theorem wrap64_wrap64_add (a b : Int) : wrap64 (wrap64 a + b) = wrap64 (a + b) := by
  unfold wrap64
  omega

theorem wrap64_eq_self (x : Int) (h1 : -9223372036854775808 ≤ x)
    (h2 : x < 9223372036854775808) : wrap64 x = x := by
  unfold wrap64
  omega

theorem loadMetricsF_append (xs ys : List MetricsF) (s : MemStorageF) :
    FileStorage.loadMetricsF (xs ++ ys) s =
      FileStorage.loadMetricsF ys (FileStorage.loadMetricsF xs s) := by
  simp [FileStorage.loadMetricsF, List.foldl_append]

theorem loadStepF_gaugeEntryF (s : MemStorageF) (p : String × Float64) :
    loadStepF s (gaugeEntryF p) = { s with gauge := mapSet s.gauge p.1 p.2 } := by
  simp [loadStepF, gaugeEntryF]

theorem loadStepF_counterEntryF (s : MemStorageF) (p : String × GoInt) :
    loadStepF s (counterEntryF p) = { s with counter := mapSet s.counter p.1 p.2 } := by
  simp [loadStepF, counterEntryF]

theorem loadMetricsF_gauges (g : List (String × Float64)) :
    ∀ s : MemStorageF,
      FileStorage.loadMetricsF (g.map gaugeEntryF) s =
        { s with gauge := g.foldl (fun a p => mapSet a p.1 p.2) s.gauge } := by
  induction g with
  | nil => intro s; simp [FileStorage.loadMetricsF]
  | cons p rest ih =>
    intro s
    simp only [List.map_cons, FileStorage.loadMetricsF, List.foldl_cons] at ih ⊢
    rw [loadStepF_gaugeEntryF]
    exact ih _

theorem loadMetricsF_counters (c : List (String × GoInt)) :
    ∀ s : MemStorageF,
      FileStorage.loadMetricsF (c.map counterEntryF) s =
        { s with counter := c.foldl (fun a p => mapSet a p.1 p.2) s.counter } := by
  induction c with
  | nil => intro s; simp [FileStorage.loadMetricsF]
  | cons p rest ih =>
    intro s
    simp only [List.map_cons, FileStorage.loadMetricsF, List.foldl_cons] at ih ⊢
    rw [loadStepF_counterEntryF]
    exact ih _

theorem marshalMetricsF_ok (l : List MetricsF)
    (h : ∀ m ∈ l, ∀ v, m.Value = some v → v.jsonUnsupported = none) :
    marshalMetricsF l = Except.ok l := by
  unfold marshalMetricsF
  have hfind : l.findSome? (fun m =>
      match m.Value with
      | some v => v.jsonUnsupported
      | none => none) = none := by
    rw [List.findSome?_eq_none_iff]
    intro m hm
    cases hv : m.Value with
    | none => simp
    | some v => simpa using h m hm v hv
  rw [hfind]

theorem foldl_mapSet_nil (l : List (String × α)) (h : (l.map Prod.fst).Nodup) :
    l.foldl (fun a p => mapSet a p.1 p.2) [] = l := by
  simpa using foldl_mapSet_of_fresh l [] h (fun _ _ => rfl)

theorem findBatchError_of_invalid :
    ∀ batch : List Metrics, (∃ m ∈ batch, validateBatchElem m ≠ none) →
      ∃ e, findBatchError batch = some e := by
  intro batch h
  induction batch with
  | nil => simp at h
  | cons m rest ih =>
    cases hm : validateBatchElem m with
    | some e => exact ⟨e, by simp [findBatchError, hm]⟩
    | none =>
      obtain ⟨m', hm', hv⟩ := h
      rcases List.mem_cons.mp hm' with rfl | hmem
      · exact absurd hm hv
      · obtain ⟨e, he⟩ := ih ⟨m', hmem, hv⟩
        exact ⟨e, by simp [findBatchError, hm, he]⟩

/-! ### Hash output length lemmas -/

theorem sha256_length (msg : List Nat) : (sha256 msg).length = 32 := by
  simp [sha256, wordBytes]

theorem hexEncode_length (bytes : List Nat) :
    (hexEncode bytes).length = 2 * bytes.length := by
  show (bytes.flatMap fun b => [hexDigit (b / 16), hexDigit (b % 16)]).length = 2 * bytes.length
  induction bytes with
  | nil => rfl
  | cons b rest ih =>
    simp only [List.flatMap_cons, List.length_append, ih, List.length_cons, List.length_nil]
    omega

theorem hmacSha256_length (key data : List Nat) : (hmacSha256 key data).length = 32 := by
  simp [hmacSha256, sha256_length]

theorem computeHMACSHA256_length (data key : List Nat) :
    (computeHMACSHA256 data key).length = 64 := by
  simp [computeHMACSHA256, hexEncode_length, hmacSha256_length]

/-! ### Claim theorems -/

/-- C1: code_bug evaluation.  The claim says a second identical batch
with `delta = 1` makes `PollCount` read `2`; the batch handler applies
counter elements with `store.SetCounter` (overwrite) instead of adding
the delta, so after applying the example batch twice to an empty store
`PollCount` still reads `1`, never `2`. -/
theorem claim_C1 :
    ((updatesBatchHandler exampleBatch NewMemStorage).2).GetCounter "PollCount" = some 1 ∧
    ((updatesBatchHandler exampleBatch
        (updatesBatchHandler exampleBatch NewMemStorage).2).2).GetCounter "PollCount" = some 1 ∧
    ((updatesBatchHandler exampleBatch
        (updatesBatchHandler exampleBatch NewMemStorage).2).2).GetCounter "PollCount" ≠ some 2 := by
  decide

/-- C2 counterexample: at `d1 = d2 = 2^63 - 1` (both valid `int64`
values) the wrapped Go `int64` addition leaves the accumulator at `-2`,
not at the mathematical sum `d1 + d2`, refuting the claim as stated at
an explicit concrete input. -/
theorem claim_C2_counterexample :
    ((NewMemStorage.UpdateCounter "PollCount" 9223372036854775807).UpdateCounter "PollCount"
        9223372036854775807).GetCounter "PollCount" = some (-2) ∧
    ((NewMemStorage.UpdateCounter "PollCount" 9223372036854775807).UpdateCounter "PollCount"
        9223372036854775807).GetCounter "PollCount"
      ≠ some (9223372036854775807 + 9223372036854775807) := by
  decide

/-- C2 amended: two successive `UpdateCounter` calls on a name whose
counter is absent leave its accumulator at the two's-complement `int64`
sum `wrap64 (d1 + d2)`, which equals `d1 + d2` exactly whenever that
sum is within the `int64` range; and an `UpdateCounter` on any other
name never changes the accumulator of this name. -/
theorem claim_C2 (s : MemStorage) (name : String) (d1 d2 : GoInt)
    (h : s.GetCounter name = none) :
    ((s.UpdateCounter name d1).UpdateCounter name d2).GetCounter name
      = some (wrap64 (d1 + d2)) ∧
    (-9223372036854775808 ≤ d1 + d2 → d1 + d2 < 9223372036854775808 →
      ((s.UpdateCounter name d1).UpdateCounter name d2).GetCounter name = some (d1 + d2)) ∧
    ∀ (t : MemStorage) (m : String) (d : GoInt), m ≠ name →
      (t.UpdateCounter m d).GetCounter name = t.GetCounter name := by
  have hstep : ∀ (t : MemStorage) (d : GoInt),
      (t.UpdateCounter name d).GetCounter name
        = some (wrap64 ((t.GetCounter name).getD 0 + d)) := by
    intro t d
    simp [MemStorage.UpdateCounter, MemStorage.GetCounter, mapGet_mapSet_self]
  have hmain : ((s.UpdateCounter name d1).UpdateCounter name d2).GetCounter name
      = some (wrap64 (d1 + d2)) := by
    rw [hstep, hstep, h]
    simp only [Option.getD_none, Option.getD_some, zero_add]
    rw [wrap64_wrap64_add]
  refine ⟨hmain, ?_, ?_⟩
  · intro h1 h2
    rw [hmain, wrap64_eq_self _ h1 h2]
  · intro t m d hm
    simp [MemStorage.UpdateCounter, MemStorage.GetCounter, mapGet_mapSet_ne _ _ hm]

/-- Witness for C2 at a concrete empty store. -/
theorem claim_C2_witness :
    NewMemStorage.GetCounter "PollCount" = none ∧
    ((((NewMemStorage.UpdateCounter "PollCount" 1).UpdateCounter "PollCount" 2).GetCounter
          "PollCount" = some (wrap64 (1 + 2))) ∧
      (-9223372036854775808 ≤ (1 : GoInt) + 2 → (1 : GoInt) + 2 < 9223372036854775808 →
        ((NewMemStorage.UpdateCounter "PollCount" 1).UpdateCounter "PollCount" 2).GetCounter
          "PollCount" = some (1 + 2)) ∧
      ∀ (t : MemStorage) (m : String) (d : GoInt), m ≠ "PollCount" →
        (t.UpdateCounter m d).GetCounter "PollCount" = t.GetCounter "PollCount") :=
  ⟨rfl, claim_C2 NewMemStorage "PollCount" 1 2 rfl⟩

/-- C3 counterexample: against a network where every send succeeds, the
report tick completes the batch send successfully and nevertheless also
issues a per-metric individual send afterwards, refuting the claim that
no individual sends occur after a successful batch send. -/
theorem claim_C3_counterexample :
    (retrySend (fun _ => none) (SendReq.batchReq [pollCountMetric])).2 = RetryOutcome.ok ∧
    (reportTickSends (fun _ => none) [pollCountMetric]).filter SendReq.isSingle ≠ [] := by
  decide

/-- C3 amended: when the batch POST succeeds on its first attempt, the
tick performs no retried per-metric fallback, but it still sends every
metric individually exactly once (without retry) after the successful
batch send: the trace is the batch request followed by one individual
request per metric. -/
theorem claim_C3 (net : Network) (batch : List Metrics)
    (h : net (SendReq.batchReq batch) = none) :
    reportTickSends net batch = SendReq.batchReq batch :: batch.map SendReq.singleReq := by
  simp [reportTickSends, retrySend, retryWithBackoff, backoffDelays, retryLoop, h,
    List.replicate]

/-- Witness for C3 at a concrete network and batch. -/
theorem claim_C3_witness :
    (fun _ => none : Network) (SendReq.batchReq [pollCountMetric]) = none ∧
    reportTickSends (fun _ => none) [pollCountMetric] =
      SendReq.batchReq [pollCountMetric] :: [pollCountMetric].map SendReq.singleReq :=
  ⟨rfl, claim_C3 (fun _ => none) [pollCountMetric] rfl⟩

/-- C4: an operation failing every attempt with retriable errors is
invoked exactly 4 times under the `[0, 1s, 3s, 5s]` schedule and the
result wraps the attempt count together with the last cause; an
operation whose first error is classified non-retriable returns that
error immediately after exactly 1 attempt. -/
theorem claim_C4 (fn g : Nat → Option AgentError) (e0 : AgentError)
    (hfn : ∀ i, ∃ e, fn i = some e ∧ classifyRetriable e = true)
    (hg0 : g 0 = some e0) (hfatal : classifyRetriable e0 = false) :
    ((retryWithBackoff fn).1 = 4 ∧
      ∃ e, fn 3 = some e ∧ (retryWithBackoff fn).2 = RetryOutcome.exhausted 4 e) ∧
    retryWithBackoff g = (1, RetryOutcome.failed e0) := by
  constructor
  · obtain ⟨e₀, h₀, hr₀⟩ := hfn 0
    obtain ⟨e₁, h₁, hr₁⟩ := hfn 1
    obtain ⟨e₂, h₂, hr₂⟩ := hfn 2
    obtain ⟨e₃, h₃, hr₃⟩ := hfn 3
    have hrun : retryWithBackoff fn = (4, RetryOutcome.exhausted 4 e₃) := by
      simp [retryWithBackoff, backoffDelays, retryLoop, h₀, h₁, h₂, h₃, hr₀, hr₁, hr₂, hr₃]
    exact ⟨by rw [hrun], e₃, h₃, by rw [hrun]⟩
  · simp [retryWithBackoff, backoffDelays, retryLoop, hg0, hfatal]

/-- Witness for C4: a permanently failing `net.OpError` operation and a
fatal non-timeout `net.Error` operation. -/
theorem claim_C4_witness :
    ((∀ i, ∃ e, alwaysOpError i = some e ∧ classifyRetriable e = true) ∧
      fatalFirstTry 0 = some (AgentError.netErr false) ∧
      classifyRetriable (AgentError.netErr false) = false) ∧
    (((retryWithBackoff alwaysOpError).1 = 4 ∧
        ∃ e, alwaysOpError 3 = some e ∧
          (retryWithBackoff alwaysOpError).2 = RetryOutcome.exhausted 4 e) ∧
      retryWithBackoff fatalFirstTry = (1, RetryOutcome.failed (AgentError.netErr false))) :=
  ⟨⟨fun _ => ⟨AgentError.opError, rfl, rfl⟩, rfl, rfl⟩,
    claim_C4 alwaysOpError fatalFirstTry (AgentError.netErr false)
      (fun _ => ⟨AgentError.opError, rfl, rfl⟩) rfl rfl⟩

/-- C5 counterexample: at a concrete store and target path, the save
trace contains no rename at all and opens the target path itself with
`O_TRUNC`, refuting the claim that every save writes to a temporary
path and atomically renames it over the target. -/
theorem claim_C5_counterexample :
    (¬ ∃ op ∈ FileStorage.saveOps exampleFileStore "/tmp/metrics-db.json",
        FileOp.isRename op = true) ∧
    FileStorage.saveOps exampleFileStore "/tmp/metrics-db.json" =
      [FileOp.openFile "/tmp/metrics-db.json"
          [OpenFlag.O_WRONLY, OpenFlag.O_CREATE, OpenFlag.O_TRUNC, OpenFlag.O_SYNC],
       FileOp.write "/tmp/metrics-db.json" exampleFileStore.GetAll] := by
  exact ⟨by decide, rfl⟩

/-- C5 amended: every file-backend save rewrites the backing file in
place: it opens the target path itself with
`O_WRONLY|O_CREATE|O_TRUNC|O_SYNC` (truncate-and-write-in-place) and
writes the serialized snapshot directly to it; no temporary path is
written and no rename is performed. -/
theorem claim_C5 (s : MemStorage) (filePath : String) :
    FileStorage.saveOps s filePath =
      [FileOp.openFile filePath
          [OpenFlag.O_WRONLY, OpenFlag.O_CREATE, OpenFlag.O_TRUNC, OpenFlag.O_SYNC],
       FileOp.write filePath s.GetAll] ∧
    ∀ op ∈ FileStorage.saveOps s filePath, FileOp.isRename op = false := by
  refine ⟨rfl, ?_⟩
  intro op hop
  simp [FileStorage.saveOps] at hop
  rcases hop with rfl | rfl <;> rfl

/-- C6 counterexample: a store holding a NaN gauge value (a reachable
state: the legacy text route parses `NaN` and mutates the mirror before
`Save` runs) makes `Save` fail at `json.MarshalIndent` before anything
is written, so the round trip produces no snapshot at all and in
particular does not reproduce the snapshot of this state. -/
theorem claim_C6_counterexample :
    FileStorage.saveSnapshot nanStore = Except.error "json: unsupported value: NaN" ∧
    fileRoundTrip nanStore = none ∧
    fileRoundTrip nanStore ≠ some nanStore.GetAll := by
  refine ⟨rfl, rfl, ?_⟩
  decide

/-- C6 amended: for every well-formed store state all of whose gauge
values are finite (JSON-marshalable, no NaN or infinity), `Save`
marshals the snapshot successfully and loading the saved content into
a fresh empty store reproduces an identical snapshot; a NaN or
infinite gauge value instead makes the marshal step fail before any
write. -/
theorem claim_C6 (s : MemStorageF) (h : s.wf)
    (hm : ∀ p ∈ s.gauge, (Prod.snd p).jsonUnsupported = none) :
    FileStorage.saveSnapshot s = Except.ok s.GetAll ∧
    fileRoundTrip s = some s.GetAll := by
  have hsave : FileStorage.saveSnapshot s = Except.ok s.GetAll := by
    unfold FileStorage.saveSnapshot
    apply marshalMetricsF_ok
    intro m hmem v hv
    rcases List.mem_append.mp hmem with hg | hc
    · obtain ⟨p, hp, rfl⟩ := List.mem_map.mp hg
      have : some p.2 = some v := by simpa [gaugeEntryF] using hv
      cases this
      exact hm p hp
    · obtain ⟨p, hp, rfl⟩ := List.mem_map.mp hc
      simp [counterEntryF] at hv
  have hload : FileStorage.loadMetricsF s.GetAll NewMemStorageF = s := by
    rw [MemStorageF.GetAll, loadMetricsF_append, loadMetricsF_gauges, loadMetricsF_counters]
    show MemStorageF.mk (s.gauge.foldl (fun a p => mapSet a p.1 p.2) [])
        (s.counter.foldl (fun a p => mapSet a p.1 p.2) []) = s
    rw [foldl_mapSet_nil s.gauge h.1, foldl_mapSet_nil s.counter h.2]
  refine ⟨hsave, ?_⟩
  unfold fileRoundTrip
  rw [hsave]
  show some ((FileStorage.loadMetricsF s.GetAll NewMemStorageF).GetAll) = some s.GetAll
  rw [hload]

/-- Witness for C6 at a concrete store with one finite gauge and one
counter. -/
theorem claim_C6_witness :
    (exampleStoreF.wf ∧ ∀ p ∈ exampleStoreF.gauge, (Prod.snd p).jsonUnsupported = none) ∧
    (FileStorage.saveSnapshot exampleStoreF = Except.ok exampleStoreF.GetAll ∧
      fileRoundTrip exampleStoreF = some exampleStoreF.GetAll) := by
  have hwf : exampleStoreF.wf := by
    constructor <;> simp [exampleStoreF]
  have hmarsh : ∀ p ∈ exampleStoreF.gauge, (Prod.snd p).jsonUnsupported = none := by
    decide
  exact ⟨⟨hwf, hmarsh⟩, claim_C6 exampleStoreF hwf hmarsh⟩

/-- C7: a batch containing at least one element that fails validation
is rejected with a 400 validation error and the store is left
completely unchanged, including for valid elements preceding the
invalid one. -/
theorem claim_C7 (batch : List Metrics) (s : MemStorage)
    (h : ∃ m ∈ batch, validateBatchElem m ≠ none) :
    ∃ e, updatesBatchHandler batch s = (HandlerResult.jsonError 400 e, s) := by
  obtain ⟨e, he⟩ := findBatchError_of_invalid batch h
  obtain ⟨m, hm, _⟩ := h
  have hne : ¬ batch.length = 0 := by
    have := List.length_pos.mpr (List.ne_nil_of_mem hm)
    omega
  exact ⟨e, by simp [updatesBatchHandler, hne, he]⟩

/-- Witness for C7 at a batch whose first element is valid and whose
second element is a counter missing its delta. -/
theorem claim_C7_witness :
    (∃ m ∈ exampleInvalidBatch, validateBatchElem m ≠ none) ∧
    ∃ e, updatesBatchHandler exampleInvalidBatch NewMemStorage =
      (HandlerResult.jsonError 400 e, NewMemStorage) :=
  ⟨by decide, claim_C7 exampleInvalidBatch NewMemStorage (by decide)⟩

/-- C8: with a non-empty key configured, every request whose received
`HashSHA256` header differs from the HMAC-SHA256 of the raw body bytes
is rejected with a 400 error and an unchanged store, and the wrapped
handler pipeline (decompression, parsing, route handler) is never
invoked: the result is the same for every `next`. -/
theorem claim_C8 (key : List Nat) (r : HTTPRequest) (s : MemStorage)
    (hkey : key ≠ [])
    (hmismatch : headerGet r.hashHeader ≠ computeHMACSHA256 r.body key) :
    ∀ next : HTTPRequest → MemStorage → String × MemStorage,
      ∃ msg, verifySignatureMiddleware key next r s = (Except.error (400, msg), s) := by
  intro next
  have hk : ¬ key.length = 0 := by
    cases key with
    | nil => exact absurd rfl hkey
    | cons a l => simp
  by_cases hh : headerGet r.hashHeader = ""
  · exact ⟨"Missing HashSHA256 header", by simp [verifySignatureMiddleware, hk, hh]⟩
  · exact ⟨"Invalid HashSHA256 signature",
      by simp [verifySignatureMiddleware, hk, hh, hmismatch]⟩

/-- Witness for C8: a one-byte key and a header that cannot be any
HMAC-SHA256 hex digest because its length is 8, not 64. -/
theorem claim_C8_witness :
    (([107] : List Nat) ≠ [] ∧
      headerGet (some "deadbeef") ≠ computeHMACSHA256 ([] : List Nat) [107]) ∧
    ∀ next : HTTPRequest → MemStorage → String × MemStorage,
      ∃ msg, verifySignatureMiddleware [107] next ⟨some "deadbeef", []⟩ NewMemStorage =
        (Except.error (400, msg), NewMemStorage) := by
  have hp : headerGet (some "deadbeef") ≠ computeHMACSHA256 ([] : List Nat) [107] := by
    intro h
    have hlen := congrArg String.length h
    rw [computeHMACSHA256_length] at hlen
    exact absurd hlen (by decide)
  exact ⟨⟨by simp, hp⟩,
    claim_C8 [107] ⟨some "deadbeef", []⟩ NewMemStorage (by simp) hp⟩

/-- C9: with a non-empty key, a request carrying no `HashSHA256` header
is rejected with status 400 and message `Missing HashSHA256 header` for
every wrapped handler, leaving the store unchanged; with an empty key
every request passes straight through to the wrapped handler. -/
theorem claim_C9 (key : List Nat) (r : HTTPRequest) (s : MemStorage)
    (hkey : key ≠ []) (hnone : r.hashHeader = none) :
    (∀ next : HTTPRequest → MemStorage → String × MemStorage,
        verifySignatureMiddleware key next r s =
          (Except.error (400, "Missing HashSHA256 header"), s)) ∧
    ∀ (next : HTTPRequest → MemStorage → String × MemStorage)
        (r' : HTTPRequest) (s' : MemStorage),
      verifySignatureMiddleware [] next r' s' = (Except.ok (next r' s').1, (next r' s').2) := by
  constructor
  · intro next
    have hk : ¬ key.length = 0 := by
      cases key with
      | nil => exact absurd rfl hkey
      | cons a l => simp
    simp [verifySignatureMiddleware, hk, hnone, headerGet]
  · intro next r' s'
    simp [verifySignatureMiddleware]

/-- Witness for C9 at a concrete key, request and store. -/
theorem claim_C9_witness :
    (([107] : List Nat) ≠ [] ∧ (HTTPRequest.mk none [1, 2]).hashHeader = none) ∧
    ((∀ next : HTTPRequest → MemStorage → String × MemStorage,
        verifySignatureMiddleware [107] next ⟨none, [1, 2]⟩ NewMemStorage =
          (Except.error (400, "Missing HashSHA256 header"), NewMemStorage)) ∧
      ∀ (next : HTTPRequest → MemStorage → String × MemStorage)
          (r' : HTTPRequest) (s' : MemStorage),
        verifySignatureMiddleware [] next r' s' =
          (Except.ok (next r' s').1, (next r' s').2)) :=
  ⟨⟨by simp, rfl⟩, claim_C9 [107] ⟨none, [1, 2]⟩ NewMemStorage (by simp) rfl⟩

/-- C10: the empty batch `[]` is rejected with status 400 and reason
`Empty batch not allowed` for every store, the store is unchanged, and
the handler never answers an empty batch with a success response. -/
theorem claim_C10 (s : MemStorage) :
    updatesBatchHandler [] s = (HandlerResult.jsonError 400 BatchReject.emptyBatch, s) ∧
    ∀ body, (updatesBatchHandler [] s).1 ≠ HandlerResult.ok body := by
  refine ⟨rfl, ?_⟩
  intro body h
  simp [updatesBatchHandler] at h

end MetricsPipeline
